import Mathlib

/-!
Verification of `src/actigraphy/io/data_import.py` (childmindresearch/app-actigraphy).

Shallow embedding: Python lists become `List`, floats become `ℚ` (exact
rational arithmetic standing in for IEEE doubles), Python `int`s become `ℤ`
(or `ℕ` where the source value is an index), `datetime.datetime` becomes a
record of calendar fields, and exceptions become `Except PyError`.
Python sequence indexing/slicing semantics (negative wrap-around, clamping)
are modelled explicitly by `pyGet` / `pySlice`.
-/

/-- Python exceptions raised by the translated code: `IndexError` from list
indexing and `ValueError msg` from explicit `raise ValueError(msg)`. -/
inductive PyError where
  | indexError : PyError
  | valueError : String → PyError
deriving DecidableEq

instance {ε α : Type} [DecidableEq ε] [DecidableEq α] : DecidableEq (Except ε α) := fun x y =>
  match x, y with
  | .ok a, .ok b => if h : a = b then isTrue (by subst h; rfl) else isFalse (by simp [h])
  | .ok _, .error _ => isFalse (by simp)
  | .error _, .ok _ => isFalse (by simp)
  | .error a, .error b => if h : a = b then isTrue (by subst h; rfl) else isFalse (by simp [h])

/-- Resolve one bound of a Python slice `l[a:b]` for a list of length `len`:
negative values count from the end, and the result is clamped to `[0, len]`. -/
def pySliceIdx (len : ℕ) (i : ℤ) : ℕ :=
  if i < 0 then (i + len).toNat else min i.toNat len

/-- Python slice `l[a:b]` (with `b = none` meaning `l[a:]`). -/
def pySlice {α : Type} (l : List α) (a : ℤ) (b : Option ℤ) : List α :=
  let lo := pySliceIdx l.length a
  let hi := match b with
    | none => l.length
    | some b2 => pySliceIdx l.length b2
  (l.drop lo).take (hi - lo)

/-- Python indexing `l[i]`: negative indices count from the end; out-of-range
raises `IndexError`. -/
def pyGet {α : Type} (l : List α) (i : ℤ) : Except PyError α :=
  let j := if i < 0 then i + l.length else i
  if h : 0 ≤ j ∧ j.toNat < l.length then .ok (l.get ⟨j.toNat, h.2⟩)
  else .error .indexError

/-- Python `int(x)` on a float: truncation toward zero. -/
def truncQ (x : ℚ) : ℤ := if 0 ≤ x then ⌊x⌋ else ⌈x⌉

/-- Calendar timestamp, modelling the fields of `datetime.datetime` that the
source consults (`.day` for midnight detection, the whole value for list
equality in `timestamps.index`). -/
structure DateTime where
  year : ℤ
  month : ℕ
  day : ℕ
  hour : ℕ
  minute : ℕ
  second : ℕ
deriving DecidableEq

/-- Arbitrary default timestamp, used only as the `List.getD` fallback. -/
def dt0 : DateTime := ⟨2000, 1, 1, 0, 0, 0⟩

/-- Model of `get_midnights` (data_import.py lines 84-88): over
`itertools.pairwise(timestamps)`, keep the pairs whose day-of-month differs
and record `timestamps.index(date_pairs[1]) + 1` for each. -/
def get_midnights (timestamps : List DateTime) : List ℕ :=
  ((timestamps.zip timestamps.tail).filter
      (fun p => decide (p.1.day ≠ p.2.day))).map
    (fun p => timestamps.indexOf p.2 + 1)

/-- The parsed recording consulted by `get_graph_data`: the `metashort`
(fine-resolution) columns `timestamp`, `ENMO`, `anglez`, the `metalong`
(coarse) column `nonwearscore`, and `windowsizes[0]` / `windowsizes[1]`. -/
structure Recording where
  timestamps : List DateTime
  enmo : List ℚ
  anglez : List ℚ
  nonwearscore : List ℤ
  ws_fine : ℤ
  ws_coarse : ℤ

/-- Model of `_adjust_timepoint_for_daylight_savings` (lines 207-227).
`day_length = end - start`; both `if`s test
`(day_length + 1) // (3600 / window_size)` (float floor division, so a
rational floor here) against 25 and 23, and shift `end` by
`int(60 * 60 / window_size)` (truncation toward zero). The second test
reuses the `day_length` computed from the original `end`. -/
def adjust_timepoint_for_daylight_savings (start e ws : ℤ) : ℤ :=
  let day_length : ℤ := e - start
  let q : ℤ := ⌊((day_length + 1 : ℤ) : ℚ) / ((3600 : ℚ) / (ws : ℚ))⌋
  let e1 : ℤ := if q = 25 then e - truncQ ((60 * 60 : ℚ) / (ws : ℚ)) else e
  if q = 23 then e1 + truncQ ((60 * 60 : ℚ) / (ws : ℚ)) else e1

/-- The boundary list `target_timepoints = [0, *get_midnights(...), None]`
built by `_day_start_and_end_time_points` (line 189). -/
def target_timepoints (r : Recording) : List (Option ℕ) :=
  (0 :: get_midnights r.timestamps).map some ++ [none]

/-- `list(itertools.pairwise(target_timepoints))` (line 191). -/
def target_pairs (r : Recording) : List (Option ℕ × Option ℕ) :=
  (target_timepoints r).zip (target_timepoints r).tail

/-- Model of `_day_start_and_end_time_points` (lines 173-204):
`target_timepoints = [0, *get_midnights(...), None]`, consecutive pairs are
indexed by `day` (Python indexing, hence negative wrap-around), a `None`
start raises `ValueError`, and a truthy `end` (non-`None`, non-zero) is
passed through the DST adjustment. -/
def day_start_and_end_time_points (r : Recording) (day : ℤ) :
    Except PyError (ℕ × Option ℤ) := do
  let se ← pyGet (target_pairs r) day
  match se.1 with
  | none => .error (.valueError "No start time found")
  | some s =>
    match se.2 with
    | none => .ok (s, none)
    | some e =>
      if e ≠ 0 then
        .ok (s, some (adjust_timepoint_for_daylight_savings (s : ℤ) (e : ℤ) r.ws_fine))
      else
        .ok (s, some (e : ℤ))

/-- Model of `_extend_data` (lines 230-253): `"prepend"` puts the extension
first, `"append"` puts it last, `None` returns the data unchanged, and any
other string raises `ValueError`. -/
def extend_data {α : Type} (data ext : List α) (action : Option String) :
    Except PyError (List α) :=
  if action = some "prepend" then .ok (ext ++ data)
  else if action = some "append" then .ok (data ++ ext)
  else if action = none then .ok data
  else .error (.valueError "Invalid action")

/-- Model of the numpy slice assignment `nonwear[a : b] = 1` (line 141):
positions inside the resolved slice become 1, the rest are unchanged. -/
def set_ones (v : List ℕ) (a b : ℤ) : List ℕ :=
  (List.range v.length).map fun j =>
    if pySliceIdx v.length a ≤ j ∧ j < pySliceIdx v.length b then 1 else v.getD j 0

/-- Model of `np.where(metalong.nonwearscore > 1)[0]` (line 135): the
ascending indices whose score exceeds 1. -/
def nonwear_elements (scores : List ℤ) : List ℕ :=
  (List.range scores.length).filter fun i => decide (1 < scores.getD i 0)

/-- Non-wear projection loop of `get_graph_data` (lines 131-141): start from
`np.zeros(fine_len)` and run `nonwear[i : i + rwidth] = 1` for every coarse
index `i` whose score exceeds 1 (`rwidth` is `windowsizes[1] //
windowsizes[0] - 1`). -/
def project_nonwear (scores : List ℤ) (rwidth : ℤ) (fine_len : ℕ) : List ℕ :=
  (nonwear_elements scores).foldl
    (fun (v : List ℕ) (i : ℕ) => set_ones v (i : ℤ) ((i : ℤ) + rwidth))
    (List.replicate fine_len 0)

/-- The plotting rescale applied to the acceleration list (line 168):
`value / 14 - 210`. -/
def rescale (x : ℚ) : ℚ := x / 14 - 210

/-- Model of `get_graph_data` (lines 109-170): project non-wear onto the fine
grid, slice the three signals to the day window, compute the zero extension
`[0] * (n_points_per_day - len(acc))`, choose the padding action from the
boundary classification, extend all three signals, and rescale the
acceleration. -/
def get_graph_data (r : Recording) (day n_points_per_day : ℤ) :
    Except PyError (List ℚ × List ℚ × List ℕ) := do
  let nonwear : List ℕ :=
    project_nonwear r.nonwearscore (r.ws_coarse.fdiv r.ws_fine - 1) r.enmo.length
  let se ← day_start_and_end_time_points r day
  let acc : List ℚ := (pySlice r.enmo (se.1 : ℤ) se.2).map (fun v => |v * 1000|)
  let ang : List ℚ := pySlice r.anglez (se.1 : ℤ) se.2
  let non_wear : List ℕ := pySlice nonwear (se.1 : ℤ) se.2
  let extLen : ℕ := (n_points_per_day - (acc.length : ℤ)).toNat
  let action : Option String :=
    if se.1 = 0 then some "prepend"
    else if se.2 = none then some "append"
    else none
  let acc2 ← extend_data acc (List.replicate extLen (0 : ℚ)) action
  let ang2 ← extend_data ang (List.replicate extLen (0 : ℚ)) action
  let nw2 ← extend_data non_wear (List.replicate extLen (0 : ℕ)) action
  .ok (acc2.map rescale, ang2, nw2)

/-- Single-day example recording: one fine sample, so no midnight boundary;
day 0 has `start = 0` and `end = None` simultaneously. -/
def exRec1 : Recording :=
  { timestamps := [⟨2023, 5, 5, 12, 0, 0⟩]
    enmo := [1]
    anglez := [2]
    nonwearscore := []
    ws_fine := 30
    ws_coarse := 900 }

/-- Three-calendar-day example recording: five fine samples with day changes
after index 0 and after index 2, so `get_midnights` sees two boundary pairs. -/
def exRec2 : Recording :=
  { timestamps :=
      [⟨2023, 5, 1, 23, 59, 30⟩, ⟨2023, 5, 2, 0, 0, 0⟩, ⟨2023, 5, 2, 12, 0, 0⟩,
       ⟨2023, 5, 3, 0, 0, 0⟩, ⟨2023, 5, 3, 0, 0, 30⟩]
    enmo := [0, 0, 0, 0, 0]
    anglez := [0, 0, 0, 0, 0]
    nonwearscore := []
    ws_fine := 30
    ws_coarse := 900 }

/-! ### Helper lemmas -/

lemma except_ok_bind {ε α β : Type} (a : α) (f : α → Except ε β) :
    (Except.ok a : Except ε α) >>= f = f a := rfl

lemma except_error_bind {ε α β : Type} (err : ε) (f : α → Except ε β) :
    (Except.error err : Except ε α) >>= f = Except.error err := rfl

/-- Evaluating `day_start_and_end_time_points` on the three-day example at an
interior day leaves only the DST adjustment symbolic. -/
lemma day_start_exRec2_1 : day_start_and_end_time_points exRec2 1 =
    .ok (2, some (adjust_timepoint_for_daylight_savings 2 4 30)) := rfl

/-- The full-recording non-wear vector built at the top of `get_graph_data`. -/
def nonwear_vec (r : Recording) : List ℕ :=
  project_nonwear r.nonwearscore (r.ws_coarse.fdiv r.ws_fine - 1) r.enmo.length

/-- The day's acceleration slice `abs(enmo[start:end] * 1000)`. -/
def acc_slice (r : Recording) (s : ℕ) (e : Option ℤ) : List ℚ :=
  (pySlice r.enmo (s : ℤ) e).map (fun v => |v * 1000|)

/-- The day's angle slice `anglez[start:end]`. -/
def ang_slice (r : Recording) (s : ℕ) (e : Option ℤ) : List ℚ :=
  pySlice r.anglez (s : ℤ) e

/-- The day's non-wear slice `nonwear[start:end]`. -/
def nw_slice (r : Recording) (s : ℕ) (e : Option ℤ) : List ℕ :=
  pySlice (nonwear_vec r) (s : ℤ) e

/-- The extension length `n_points_per_day - len(acc)`, clamped at zero as the
Python `[0] * k` is for negative `k`. -/
def ext_len (r : Recording) (n : ℤ) (s : ℕ) (e : Option ℤ) : ℕ :=
  (n - ((acc_slice r s e).length : ℤ)).toNat

/-- Unfolding of `get_graph_data` for an interior day (`start ≠ 0`, bounded
end): the slices are returned with no extension applied. -/
lemma get_graph_data_interior (r : Recording) (day n : ℤ) (s : ℕ) (e : ℤ)
    (h : day_start_and_end_time_points r day = .ok (s, some e)) (hs : s ≠ 0) :
    get_graph_data r day n =
      .ok ((acc_slice r s (some e)).map rescale, ang_slice r s (some e),
        nw_slice r s (some e)) := by
  simp only [get_graph_data, h, except_ok_bind]
  simp [extend_data, hs, except_ok_bind, Function.comp,
    acc_slice, ang_slice, nw_slice, nonwear_vec]

/-- Unfolding of `get_graph_data` for a day with `start = 0`: the zero
extension is prepended to all three slices. -/
lemma get_graph_data_prepend (r : Recording) (day n : ℤ) (e : Option ℤ)
    (h : day_start_and_end_time_points r day = .ok (0, e)) :
    get_graph_data r day n =
      .ok ((List.replicate (ext_len r n 0 e) (0 : ℚ) ++ acc_slice r 0 e).map rescale,
        List.replicate (ext_len r n 0 e) (0 : ℚ) ++ ang_slice r 0 e,
        List.replicate (ext_len r n 0 e) (0 : ℕ) ++ nw_slice r 0 e) := by
  simp only [get_graph_data, h, except_ok_bind]
  simp [extend_data, except_ok_bind, Function.comp,
    acc_slice, ang_slice, nw_slice, nonwear_vec, ext_len]

/-- Unfolding of `get_graph_data` for a final day that is not also the first
(`start ≠ 0`, `end = None`): the zero extension is appended. -/
lemma get_graph_data_append (r : Recording) (day n : ℤ) (s : ℕ)
    (h : day_start_and_end_time_points r day = .ok (s, none)) (hs : s ≠ 0) :
    get_graph_data r day n =
      .ok ((acc_slice r s none ++ List.replicate (ext_len r n s none) (0 : ℚ)).map rescale,
        ang_slice r s none ++ List.replicate (ext_len r n s none) (0 : ℚ),
        nw_slice r s none ++ List.replicate (ext_len r n s none) (0 : ℕ)) := by
  simp only [get_graph_data, h, except_ok_bind]
  simp [extend_data, hs, except_ok_bind, Function.comp,
    acc_slice, ang_slice, nw_slice, nonwear_vec, ext_len]

/-! ### DST adjustment: C4 and C5 -/

/-- For a positive window size, the truncation `int(60 * 60 / window_size)` is
the floor of `3600 / window_size`. -/
lemma truncQ_hour (ws : ℤ) (hws : 0 < ws) :
    truncQ ((60 * 60 : ℚ) / (ws : ℚ)) = ⌊(3600 : ℚ) / (ws : ℚ)⌋ := by
  have h60 : (60 * 60 : ℚ) = 3600 := by norm_num
  have hpos : (0 : ℚ) ≤ (3600 : ℚ) / (ws : ℚ) := by
    have : (0 : ℚ) < (ws : ℚ) := by exact_mod_cast hws
    positivity
  rw [truncQ, h60, if_pos hpos]

/-- C4: for start ≤ end and positive window size, the DST adjustment returns
`end - ⌊3600/ws⌋` when the floored quotient `(day_length + 1) // (3600/ws)`
is 25, `end + ⌊3600/ws⌋` when it is 23, and `end` unchanged otherwise. -/
theorem C4_dst_adjust (start e ws : ℤ) (h1 : start ≤ e) (h2 : 0 < ws) :
    adjust_timepoint_for_daylight_savings start e ws =
      (if ⌊((e - start + 1 : ℤ) : ℚ) / ((3600 : ℚ) / (ws : ℚ))⌋ = 25 then
        e - ⌊(3600 : ℚ) / (ws : ℚ)⌋
      else if ⌊((e - start + 1 : ℤ) : ℚ) / ((3600 : ℚ) / (ws : ℚ))⌋ = 23 then
        e + ⌊(3600 : ℚ) / (ws : ℚ)⌋
      else e) := by
  unfold adjust_timepoint_for_daylight_savings
  rw [truncQ_hour ws h2]
  push_cast
  set q := ⌊((e : ℚ) - (start : ℚ) + 1) / ((3600 : ℚ) / (ws : ℚ))⌋ with hq
  by_cases h25 : q = 25 <;> by_cases h23 : q = 23 <;> simp [h25, h23]

/-- Witness for C4 at `start = 0`, `end = 2999`, `ws = 30` (a 25-"hour" day
at 120 samples per hour: the end is pulled back by one hour of samples). -/
theorem C4_dst_adjust_witness :
    adjust_timepoint_for_daylight_savings 0 2999 30 = 2879 := by
  rw [C4_dst_adjust 0 2999 30 (by norm_num) (by norm_num)]
  norm_num

/-- When `ws` divides 3600 the quotient `3600 / ws` is the exact integer `c`,
both as the rational divisor and as the truncated shift. -/
lemma adjust_exact (start e ws c : ℤ) (hws : 0 < ws) (hc : 3600 = ws * c) :
    adjust_timepoint_for_daylight_savings start e ws =
      (if ⌊((e - start + 1 : ℤ) : ℚ) / (c : ℚ)⌋ = 25 then e - c
      else if ⌊((e - start + 1 : ℤ) : ℚ) / (c : ℚ)⌋ = 23 then e + c
      else e) := by
  have hwsQ : (ws : ℚ) ≠ 0 := by
    exact_mod_cast hws.ne'
  have hA : (3600 : ℚ) / (ws : ℚ) = (c : ℚ) := by
    rw [div_eq_iff hwsQ]
    have : (3600 : ℚ) = ((3600 : ℤ) : ℚ) := by norm_num
    rw [this, hc]
    push_cast
    ring
  have hc0 : 0 ≤ c := by
    nlinarith
  have htr : truncQ ((60 * 60 : ℚ) / (ws : ℚ)) = c := by
    rw [truncQ_hour ws hws, hA, Int.floor_intCast]
  unfold adjust_timepoint_for_daylight_savings
  rw [htr, hA]
  push_cast
  set q := ⌊((e : ℚ) - (start : ℚ) + 1) / (c : ℚ)⌋ with hqdef
  by_cases h25 : q = 25 <;> by_cases h23 : q = 23 <;> simp [h25, h23]

/-- Shifting the dividend by a full divisor shifts the rational floor
quotient by one. -/
lemma floor_div_shift (x c : ℤ) (hc : c ≠ 0) :
    ⌊((x - c : ℤ) : ℚ) / (c : ℚ)⌋ = ⌊((x : ℤ) : ℚ) / (c : ℚ)⌋ - 1 := by
  have hcQ : (c : ℚ) ≠ 0 := by exact_mod_cast hc
  have h : ((x - c : ℤ) : ℚ) / (c : ℚ) = ((x : ℤ) : ℚ) / (c : ℚ) - ((1 : ℤ) : ℚ) := by
    push_cast
    field_simp
  rw [h, Int.floor_sub_int]

/-- C5: DST correction is idempotent — for every `start`, `end` and positive
window size dividing 3600, applying the adjustment to an already-adjusted end
leaves it unchanged. -/
theorem C5_dst_idempotent (start e ws : ℤ) (hws : 0 < ws) (hdvd : ws ∣ 3600) :
    adjust_timepoint_for_daylight_savings start
        (adjust_timepoint_for_daylight_savings start e ws) ws =
      adjust_timepoint_for_daylight_savings start e ws := by
  obtain ⟨c, hc⟩ := hdvd
  have hc0 : 0 < c := by nlinarith
  rw [adjust_exact start e ws c hws hc]
  by_cases h25 : ⌊((e - start + 1 : ℤ) : ℚ) / (c : ℚ)⌋ = 25
  · rw [if_pos h25]
    rw [adjust_exact start (e - c) ws c hws hc]
    have hsh : (e - c - start + 1) = (e - start + 1) - c := by ring
    rw [hsh, floor_div_shift _ _ hc0.ne', h25]
    norm_num
  · rw [if_neg h25]
    by_cases h23 : ⌊((e - start + 1 : ℤ) : ℚ) / (c : ℚ)⌋ = 23
    · rw [if_pos h23]
      rw [adjust_exact start (e + c) ws c hws hc]
      have hsh : (e + c - start + 1) = ((e - start + 1) + c) - c + c := by ring
      have hup : ⌊((e + c - start + 1 : ℤ) : ℚ) / (c : ℚ)⌋ =
          ⌊((e - start + 1 : ℤ) : ℚ) / (c : ℚ)⌋ + 1 := by
        have h : (e + c - start + 1) - c = e - start + 1 := by ring
        have := floor_div_shift (e + c - start + 1) c hc0.ne'
        rw [h] at this
        omega
      rw [hup, h23]
      norm_num
    · rw [if_neg h23]
      rw [adjust_exact start e ws c hws hc, if_neg h25, if_neg h23]

/-- Witness for C5 at `start = 0`, `end = 2999`, `ws = 30`: the once-adjusted
end 2879 is left unchanged by a second adjustment. -/
theorem C5_dst_idempotent_witness :
    adjust_timepoint_for_daylight_savings 0
        (adjust_timepoint_for_daylight_savings 0 2999 30) 30 =
      adjust_timepoint_for_daylight_savings 0 2999 30 :=
  C5_dst_idempotent 0 2999 30 (by norm_num) ⟨120, by norm_num⟩

/-! ### Non-wear projection: C6 -/

lemma getD_lt {α : Type} (l : List α) (d : α) (j : ℕ) (h : j < l.length) :
    l.getD j d = l[j] := by
  simp [List.getD_eq_getElem?_getD, List.getElem?_eq_getElem h]

lemma set_ones_length (v : List ℕ) (a b : ℤ) : (set_ones v a b).length = v.length := by
  simp [set_ones]

lemma set_ones_getD (v : List ℕ) (a b : ℤ) (j : ℕ) (hj : j < v.length) :
    (set_ones v a b).getD j 0 =
      if pySliceIdx v.length a ≤ j ∧ j < pySliceIdx v.length b then 1
      else v.getD j 0 := by
  have hj2 : j < (set_ones v a b).length := by rw [set_ones_length]; exact hj
  rw [getD_lt _ _ _ hj2]
  simp [set_ones, hj]

lemma fold_set_ones_length (l : List ℕ) (rwidth : ℤ) (v : List ℕ) :
    (l.foldl (fun (w : List ℕ) (i : ℕ) => set_ones w (i : ℤ) ((i : ℤ) + rwidth)) v).length = v.length := by
  induction l generalizing v with
  | nil => rfl
  | cons a t ih => rw [List.foldl_cons, ih, set_ones_length]

lemma fold_set_ones_getD_one (l : List ℕ) (rwidth : ℤ) (v : List ℕ) (j : ℕ)
    (hj : j < v.length) :
    ((l.foldl (fun (w : List ℕ) (i : ℕ) => set_ones w (i : ℤ) ((i : ℤ) + rwidth)) v).getD j 0
        = 1 ↔
      (∃ i ∈ l, pySliceIdx v.length (i : ℤ) ≤ j ∧
        j < pySliceIdx v.length ((i : ℤ) + rwidth)) ∨ v.getD j 0 = 1) := by
  induction l generalizing v with
  | nil => simp
  | cons a t ih =>
    rw [List.foldl_cons]
    have hj2 : j < (set_ones v (a : ℤ) ((a : ℤ) + rwidth)).length := by
      rw [set_ones_length]; exact hj
    rw [ih _ hj2, set_ones_length, set_ones_getD v _ _ j hj]
    by_cases hc : pySliceIdx v.length (a : ℤ) ≤ j ∧
        j < pySliceIdx v.length ((a : ℤ) + rwidth)
    · simp [hc]
    · simp only [if_neg hc, List.mem_cons]
      constructor
      · rintro (⟨i, hi, hcov⟩ | hv)
        · exact Or.inl ⟨i, Or.inr hi, hcov⟩
        · exact Or.inr hv
      · rintro (⟨i, hi | hi, hcov⟩ | hv)
        · exact absurd (hi ▸ hcov) hc
        · exact Or.inl ⟨i, hi, hcov⟩
        · exact Or.inr hv

lemma fold_set_ones_getD_cases (l : List ℕ) (rwidth : ℤ) (v : List ℕ) (j : ℕ)
    (hj : j < v.length) :
    ((l.foldl (fun (w : List ℕ) (i : ℕ) => set_ones w (i : ℤ) ((i : ℤ) + rwidth)) v).getD j 0
        = 1 ∨
      (l.foldl (fun (w : List ℕ) (i : ℕ) => set_ones w (i : ℤ) ((i : ℤ) + rwidth)) v).getD j 0 =
        v.getD j 0) := by
  induction l generalizing v with
  | nil => simp
  | cons a t ih =>
    rw [List.foldl_cons]
    have hj2 : j < (set_ones v (a : ℤ) ((a : ℤ) + rwidth)).length := by
      rw [set_ones_length]; exact hj
    rcases ih _ hj2 with h | h
    · exact Or.inl h
    · rw [h, set_ones_getD v _ _ j hj]
      by_cases hc : pySliceIdx v.length (a : ℤ) ≤ j ∧
          j < pySliceIdx v.length ((a : ℤ) + rwidth)
      · exact Or.inl (if_pos hc)
      · exact Or.inr (if_neg hc)

lemma nonwear_elements_mem (scores : List ℤ) (i : ℕ) :
    i ∈ nonwear_elements scores ↔ i < scores.length ∧ 1 < scores.getD i 0 := by
  simp [nonwear_elements]

lemma project_nonwear_length (scores : List ℤ) (rwidth : ℤ) (n : ℕ) :
    (project_nonwear scores rwidth n).length = n := by
  rw [project_nonwear, fold_set_ones_length, List.length_replicate]

/-- C6: the projected non-wear vector has length `fine_length`, contains only
zeros and ones, and carries a one exactly at the fine indices `j` covered by
some window `[i, i + ratio)` of a coarse index `i` with score above 1
(clamped to the vector bounds).  The concrete instance of the claim is
settled separately: `[0,2,0]` with ratio 2 and fine length 6 projects to
`[0,1,1,0,0,0]` (coarse index 1 sets fine indices `[1,3)`). -/
theorem C6_project_nonwear (scores : List ℤ) (rwidth : ℤ) (n : ℕ)
    (hr : 0 ≤ rwidth) :
    (project_nonwear scores rwidth n).length = n ∧
    (∀ j, j < n → ((project_nonwear scores rwidth n).getD j 0 = 0 ∨
      (project_nonwear scores rwidth n).getD j 0 = 1)) ∧
    (∀ j, j < n → ((project_nonwear scores rwidth n).getD j 0 = 1 ↔
      ∃ i, i < scores.length ∧ 1 < scores.getD i 0 ∧ i ≤ j ∧
        (j : ℤ) < (i : ℤ) + rwidth)) ∧
    project_nonwear [0, 2, 0] 2 6 = [0, 1, 1, 0, 0, 0] := by
  have hjrep : ∀ j : ℕ, j < n → j < (List.replicate n (0 : ℕ)).length := by
    intro j hj; simpa using hj
  refine ⟨project_nonwear_length scores rwidth n, ?_, ?_, by decide⟩
  · intro j hj
    rcases fold_set_ones_getD_cases (nonwear_elements scores) rwidth
        (List.replicate n 0) j (hjrep j hj) with h | h
    · exact Or.inr h
    · refine Or.inl ?_
      rw [project_nonwear, h, getD_lt _ _ _ (hjrep j hj)]
      simp
  · intro j hj
    rw [project_nonwear,
      fold_set_ones_getD_one (nonwear_elements scores) rwidth
        (List.replicate n 0) j (hjrep j hj)]
    have hzero : (List.replicate n (0 : ℕ)).getD j 0 = 0 := by
      rw [getD_lt _ _ _ (hjrep j hj)]; simp
    rw [hzero]
    simp only [List.length_replicate]
    constructor
    · rintro (⟨i, hi, hcov⟩ | h01)
      · rw [nonwear_elements_mem] at hi
        refine ⟨i, hi.1, hi.2, ?_, ?_⟩
        · have := hcov.1
          rw [pySliceIdx] at this
          split at this <;> omega
        · have := hcov.2
          rw [pySliceIdx] at this
          split at this <;> omega
      · omega
    · rintro ⟨i, hilen, hisc, hij, hjw⟩
      refine Or.inl ⟨i, (nonwear_elements_mem scores i).mpr ⟨hilen, hisc⟩, ?_, ?_⟩
      · rw [pySliceIdx]
        split <;> omega
      · rw [pySliceIdx]
        split <;> omega

/-- Witness for C6: in the projection of `[0,2,0]` with ratio 2 onto six fine
samples, fine index 2 carries a one (covered by coarse index 1). -/
theorem C6_project_nonwear_witness :
    (project_nonwear [0, 2, 0] 2 6).getD 2 0 = 1 :=
  ((C6_project_nonwear [0, 2, 0] 2 6 (by norm_num)).2.2.1 2 (by norm_num)).mpr
    ⟨1, by norm_num, by norm_num, by norm_num, by norm_num⟩

/-- Counterexample for C6 as stated: the spec's concrete instance claims the
projection of `[0,2,0]` (ratio 2, fine length 6) is `[0,0,1,1,0,0]`, but the
code sets fine indices `[1,3)` and produces `[0,1,1,0,0,0]`. -/
theorem C6_project_nonwear_counterexample :
    project_nonwear [0, 2, 0] 2 6 = [0, 1, 1, 0, 0, 0] ∧
    project_nonwear [0, 2, 0] 2 6 ≠ [0, 0, 1, 1, 0, 0] := by decide

/-! ### Midnight detection: C1 -/

/-- Whether the calendar day-of-month changes between fine samples `i` and
`i + 1`. -/
def day_change (ts : List DateTime) (i : ℕ) : Bool :=
  decide ((ts.getD i dt0).day ≠ (ts.getD (i + 1) dt0).day)

lemma zip_tail_eq {α : Type} (d : α) (l : List α) :
    l.zip l.tail =
      (List.range (l.length - 1)).map (fun i => (l.getD i d, l.getD (i + 1) d)) := by
  induction l with
  | nil => rfl
  | cons a t ih =>
    cases t with
    | nil => rfl
    | cons b t2 =>
      rw [List.tail_cons, List.zip_cons_cons]
      rw [List.tail_cons] at ih
      rw [ih]
      have hlen : (a :: b :: t2).length - 1 = t2.length + 1 := by simp
      have hlen2 : (b :: t2).length - 1 = t2.length := by simp
      rw [hlen, hlen2, List.range_succ_eq_map, List.map_cons, List.map_map]
      refine congrArg₂ List.cons (by simp) ?_
      refine List.map_congr_left ?_
      intro i hi
      simp [Function.comp]

lemma indexOf_getD (ts : List DateTime) (h : ts.Nodup) (k : ℕ) (hk : k < ts.length) :
    ts.indexOf (ts.getD k dt0) = k := by
  rw [getD_lt _ _ _ hk]
  exact List.indexOf_getElem h k hk

/-- With pairwise-distinct timestamps, `get_midnights` returns `i + 2` for
every adjacent index pair `(i, i + 1)` whose day-of-month differs. -/
lemma get_midnights_eq (ts : List DateTime) (h : ts.Nodup) :
    get_midnights ts =
      ((List.range (ts.length - 1)).filter (day_change ts)).map (fun i => i + 2) := by
  unfold get_midnights
  rw [zip_tail_eq dt0 ts, List.filter_map, List.map_map]
  rw [List.filter_congr (q := day_change ts)
    (by intro i hi; simp [Function.comp, day_change])]
  refine List.map_congr_left ?_
  intro i hi
  have hilt : i < ts.length - 1 := List.mem_range.mp (List.mem_of_mem_filter hi)
  have h1 : i + 1 < ts.length := by omega
  simp only [Function.comp]
  rw [indexOf_getD ts h (i + 1) h1]

/-- C1 (amended): for pairwise-distinct timestamps, `get_midnights` contains,
for each adjacent pair with differing day-of-month at indices `(i, i + 1)`,
exactly the value `i + 2` — one *past* the first sample of the new day; the
sequence is strictly increasing, and each element `m` satisfies `2 ≤ m` with
the day change sitting between samples `m - 2` and `m - 1` (not `m - 1` and
`m`). -/
theorem C1_get_midnights (ts : List DateTime) (h : List.Nodup ts) :
    get_midnights ts =
      ((List.range (ts.length - 1)).filter (day_change ts)).map (fun i => i + 2) ∧
    List.Pairwise (· < ·) (get_midnights ts) ∧
    ∀ m ∈ get_midnights ts, 2 ≤ m ∧
      (ts.getD (m - 1) dt0).day ≠ (ts.getD (m - 2) dt0).day := by
  have heq := get_midnights_eq ts h
  refine ⟨heq, ?_, ?_⟩
  · rw [heq]
    exact List.Pairwise.map _ (fun a b hab => by omega)
      ((List.pairwise_lt_range _).filter (day_change ts))
  · intro m hm
    rw [heq] at hm
    rcases List.mem_map.mp hm with ⟨i, hif, rfl⟩
    have hdc : day_change ts i = true := List.of_mem_filter hif
    rw [day_change, decide_eq_true_eq] at hdc
    have e1 : i + 2 - 1 = i + 1 := by omega
    have e2 : i + 2 - 2 = i := by omega
    rw [e1, e2]
    exact ⟨by omega, hdc.symm⟩

/-- A three-sample recording crossing one midnight: the last sample of
January 1st, then the first two samples of January 2nd. -/
def exTs : List DateTime :=
  [⟨2023, 1, 1, 23, 59, 0⟩, ⟨2023, 1, 2, 0, 0, 0⟩, ⟨2023, 1, 2, 0, 1, 0⟩]

/-- Witness for C1: on `exTs` the returned boundary sequence is strictly
increasing. -/
theorem C1_get_midnights_witness :
    List.Pairwise (· < ·) (get_midnights exTs) :=
  (C1_get_midnights exTs (by decide)).2.1

/-- Counterexample for C1 as stated: on `exTs` (pairwise distinct), the day
changes between samples 0 and 1, so the claim predicts the boundary index 1
(the first sample of the new day); the code instead records
`timestamps.index(pair[1]) + 1 = 2`, and at the returned index the calendar
day does *not* differ from its predecessor — `exTs[2]` and `exTs[1]` are both
January 2nd. -/
theorem C1_get_midnights_counterexample :
    exTs.Nodup ∧ get_midnights exTs = [2] ∧ get_midnights exTs ≠ [1] ∧
    (exTs.getD 2 dt0).day = (exTs.getD 1 dt0).day := by decide

/-! ### Day-window indexing: C3 -/

lemma pyGet_error_iff {α : Type} (l : List α) (i : ℤ) :
    pyGet l i = .error PyError.indexError ↔
      i < -(l.length : ℤ) ∨ (l.length : ℤ) ≤ i := by
  simp only [pyGet]
  by_cases hneg : i < 0 <;> simp only [hneg, if_true, if_false, ite_true, ite_false]
  · split
    next h => simp; omega
    next h =>
      simp only [true_iff]
      omega
  · split
    next h => simp; omega
    next h =>
      simp only [true_iff]
      omega

lemma pyGet_nonneg_ok {α : Type} (l : List α) (i : ℤ) (h0 : 0 ≤ i)
    (hk : i.toNat < l.length) :
    pyGet l i = .ok (l.get ⟨i.toNat, hk⟩) := by
  simp only [pyGet, if_neg (show ¬i < 0 by omega)]
  rw [dif_pos ⟨h0, hk⟩]

lemma pyGet_neg_ok {α : Type} (l : List α) (i : ℤ) (hneg : i < 0)
    (h1 : 0 ≤ i + (l.length : ℤ)) (hk : (i + l.length).toNat < l.length) :
    pyGet l i = .ok (l.get ⟨(i + l.length).toNat, hk⟩) := by
  simp only [pyGet, if_pos hneg]
  rw [dif_pos ⟨h1, hk⟩]

lemma target_timepoints_length (r : Recording) :
    (target_timepoints r).length = (get_midnights r.timestamps).length + 2 := by
  simp [target_timepoints]

lemma target_pairs_length (r : Recording) :
    (target_pairs r).length = (get_midnights r.timestamps).length + 1 := by
  unfold target_pairs
  rw [List.length_zip, List.length_tail, target_timepoints_length]
  omega

lemma target_pairs_fst_isSome (r : Recording) (k : ℕ)
    (hk : k < (target_pairs r).length) :
    ∃ s, ((target_pairs r).get ⟨k, hk⟩).1 = some s := by
  have hkm : k < ((0 :: get_midnights r.timestamps).map some).length := by
    simp only [List.length_map, List.length_cons]
    rw [target_pairs_length] at hk
    omega
  refine ⟨(0 :: get_midnights r.timestamps).getD k 0, ?_⟩
  unfold target_pairs
  rw [List.get_zip]
  simp only [List.get_eq_getElem]
  unfold target_timepoints
  rw [List.getElem_append_left hkm, List.getElem_map]
  rw [getD_lt _ _ _ (by simpa using hkm)]

lemma day_start_ok_of_inrange (r : Recording) (day : ℤ)
    (h1 : -((target_pairs r).length : ℤ) ≤ day)
    (h2 : day < ((target_pairs r).length : ℤ)) :
    ∃ s e, day_start_and_end_time_points r day = .ok (s, e) := by
  obtain ⟨k, hk, hpg⟩ : ∃ (k : ℕ) (hk : k < (target_pairs r).length),
      pyGet (target_pairs r) day = .ok ((target_pairs r).get ⟨k, hk⟩) := by
    by_cases hneg : day < 0
    · exact ⟨(day + (target_pairs r).length).toNat, by omega,
        pyGet_neg_ok _ day hneg (by omega) (by omega)⟩
    · exact ⟨day.toNat, by omega, pyGet_nonneg_ok _ day (by omega) (by omega)⟩
  obtain ⟨s, hs⟩ := target_pairs_fst_isSome r k hk
  cases hsnd : ((target_pairs r).get ⟨k, hk⟩).2 with
  | none =>
    exact ⟨s, none, by simp only [day_start_and_end_time_points, hpg,
      except_ok_bind, hs, hsnd]⟩
  | some e =>
    by_cases he : e ≠ 0
    · refine ⟨s, some (adjust_timepoint_for_daylight_savings (s : ℤ) (e : ℤ) r.ws_fine), ?_⟩
      simp only [day_start_and_end_time_points, hpg, except_ok_bind, hs, hsnd]
      rw [if_pos he]
    · refine ⟨s, some (e : ℤ), ?_⟩
      simp only [day_start_and_end_time_points, hpg, except_ok_bind, hs, hsnd]
      rw [if_neg he]

lemma day_start_error_iff (r : Recording) (day : ℤ) :
    day_start_and_end_time_points r day = .error PyError.indexError ↔
      day < -((target_pairs r).length : ℤ) ∨ ((target_pairs r).length : ℤ) ≤ day := by
  constructor
  · intro h
    by_contra hcon
    push_neg at hcon
    obtain ⟨s, e, hok⟩ := day_start_ok_of_inrange r day (by omega) (by omega)
    rw [hok] at h
    exact absurd h (by simp)
  · intro h
    simp only [day_start_and_end_time_points]
    rw [(pyGet_error_iff _ _).mpr h, except_error_bind]

/-- C3 (amended): `_day_start_and_end_time_points` fails with `IndexError`
exactly when `day` is at or beyond the number of day windows, or below minus
that number; every in-range index — including every *negative* in-range index,
by Python's wrap-around indexing — resolves to a window rather than failing. -/
theorem C3_day_window_range (r : Recording) (day : ℤ) :
    (day_start_and_end_time_points r day = .error PyError.indexError ↔
      day < -(((get_midnights r.timestamps).length : ℤ) + 1) ∨
        ((get_midnights r.timestamps).length : ℤ) + 1 ≤ day) ∧
    (-(((get_midnights r.timestamps).length : ℤ) + 1) ≤ day →
      day < ((get_midnights r.timestamps).length : ℤ) + 1 →
      ∃ s e, day_start_and_end_time_points r day = .ok (s, e)) := by
  have hL : ((target_pairs r).length : ℤ) =
      ((get_midnights r.timestamps).length : ℤ) + 1 := by
    rw [target_pairs_length]
    push_cast
    ring
  constructor
  · rw [day_start_error_iff, hL]
  · intro h1 h2
    exact day_start_ok_of_inrange r day (by omega) (by omega)

/-- Witness for C3: on the three-day example, day index 5 (beyond the three
windows) fails with `IndexError`. -/
theorem C3_day_window_range_witness :
    day_start_and_end_time_points exRec2 5 = .error PyError.indexError :=
  ((C3_day_window_range exRec2 5).1).mpr (Or.inr (by decide))

/-- Counterexample for C3 as stated: the claim says *every* negative
`day_index` fails with `RangeError`, but Python's negative indexing makes
`day = -1` resolve to the last window `[4, None)` of the three-day example. -/
theorem C3_day_window_range_counterexample :
    day_start_and_end_time_points exRec2 (-1) = .ok (4, none) := rfl

/-! ### Day assembly: C2, C7, C8, C9, C10 -/

lemma getD_map_lt {α β : Type} (f : α → β) (l : List α) (d : β) (d' : α) (j : ℕ)
    (hj : j < l.length) :
    (l.map f).getD j d = f (l.getD j d') := by
  rw [getD_lt _ _ _ (by simpa using hj), getD_lt _ _ _ hj, List.getElem_map]

lemma getD_append_offset {α : Type} (l1 l2 : List α) (d : α) (j : ℕ) :
    (l1 ++ l2).getD (l1.length + j) d = l2.getD j d := by
  rcases Nat.lt_or_ge j l2.length with hj | hj
  · rw [getD_lt _ _ _ (by simp; omega), getD_lt _ _ _ hj,
      List.getElem_append_right (by omega)]
    congr 1
    omega
  · rw [List.getD_eq_getElem?_getD, List.getD_eq_getElem?_getD,
      List.getElem?_eq_none (by simp; omega), List.getElem?_eq_none (by omega)]

lemma getD_replicate_append_offset {α : Type} {k : ℕ} {c : α} {l2 : List α} {d : α} {j : ℕ} :
    (List.replicate k c ++ l2).getD (k + j) d = l2.getD j d := by
  have h := getD_append_offset (List.replicate k c) l2 d j
  rwa [List.length_replicate] at h

lemma getD_append_left_lt {α : Type} (l1 l2 : List α) (d : α) (j : ℕ)
    (hj : j < l1.length) :
    (l1 ++ l2).getD j d = l1.getD j d := by
  rw [getD_lt _ _ _ (by simp; omega), getD_lt _ _ _ hj,
    List.getElem_append_left hj]

lemma rescale_map_getD (l : List ℚ) (j : ℕ) (hj : j < l.length) :
    (l.map rescale).getD j 0 = l.getD j 0 / 14 - 210 := by
  rw [getD_map_lt rescale l 0 0 j hj, rescale]

lemma acc_slice_getD (r : Recording) (s : ℕ) (e : Option ℤ) (j : ℕ)
    (hj : j < (pySlice r.enmo (s : ℤ) e).length) :
    (acc_slice r s e).getD j 0 = |(pySlice r.enmo (s : ℤ) e).getD j 0 * 1000| := by
  rw [acc_slice, getD_map_lt _ _ _ 0 j hj]

lemma acc_slice_length (r : Recording) (s : ℕ) (e : Option ℤ) :
    (acc_slice r s e).length = (pySlice r.enmo (s : ℤ) e).length := by
  simp [acc_slice]

lemma pySlice_length_congr {α β : Type} (l1 : List α) (l2 : List β)
    (h : l1.length = l2.length) (a : ℤ) (b : Option ℤ) :
    (pySlice l1 a b).length = (pySlice l2 a b).length := by
  simp [pySlice, h]

lemma ang_slice_length (r : Recording) (s : ℕ) (e : Option ℤ)
    (hlen : r.anglez.length = r.enmo.length) :
    (ang_slice r s e).length = (acc_slice r s e).length := by
  rw [acc_slice_length, ang_slice]
  exact pySlice_length_congr _ _ hlen _ _

lemma nw_slice_length (r : Recording) (s : ℕ) (e : Option ℤ) :
    (nw_slice r s e).length = (acc_slice r s e).length := by
  rw [acc_slice_length, nw_slice]
  exact pySlice_length_congr _ _ (by rw [nonwear_vec, project_nonwear_length]) _ _

/-- C2 (amended): for an interior day (`start ≠ 0`, bounded end), a slice
length differing from `n_points_per_day` is silently absorbed —
`get_graph_data` returns the unpadded slices and raises nothing; the code
contains no `InconsistentLengthError`. -/
theorem C2_interior_mismatch (r : Recording) (day n : ℤ) (s : ℕ) (e : ℤ)
    (h : day_start_and_end_time_points r day = .ok (s, some e)) (hs : s ≠ 0)
    (hmis : ((acc_slice r s (some e)).length : ℤ) ≠ n) :
    get_graph_data r day n =
      .ok ((acc_slice r s (some e)).map rescale, ang_slice r s (some e),
        nw_slice r s (some e)) ∧
    ∀ err : PyError, get_graph_data r day n ≠ .error err := by
  have hgd := get_graph_data_interior r day n s e h hs
  refine ⟨hgd, fun err hc => ?_⟩
  rw [hgd] at hc
  exact absurd hc (by simp)

/-- Witness for C2: the interior day 1 of the three-day example has slice
length 2 ≠ 5, and `get_graph_data` still returns the unpadded slices. -/
theorem C2_interior_mismatch_witness :
    get_graph_data exRec2 1 5 =
      .ok ((acc_slice exRec2 2 (some 4)).map rescale, ang_slice exRec2 2 (some 4),
        nw_slice exRec2 2 (some 4)) :=
  (C2_interior_mismatch exRec2 1 5 2 4
    (by rw [day_start_exRec2_1]; norm_num [adjust_timepoint_for_daylight_savings, truncQ])
    (by decide) (by decide)).1

/-- Counterexample for C2 as stated: day 1 of the three-day example is
interior with slice length 2 while `n_points_per_day = 5`, yet
`get_graph_data` returns the unpadded two-sample slices successfully instead
of raising `InconsistentLengthError` (no such error exists in the code). -/
theorem C2_interior_counterexample :
    day_start_and_end_time_points exRec2 1 = .ok (2, some 4) ∧
    get_graph_data exRec2 1 5 = .ok ([-210, -210], [0, 0], [0, 0]) ∧
    (2 : ℤ) ≠ 5 := by
  have h : day_start_and_end_time_points exRec2 1 = .ok (2, some 4) := by
    rw [day_start_exRec2_1]
    norm_num [adjust_timepoint_for_daylight_savings, truncQ]
  refine ⟨h, ?_, by norm_num⟩
  rw [get_graph_data_interior exRec2 1 5 2 4 h (by decide)]
  norm_num [acc_slice, ang_slice, nw_slice, nonwear_vec, pySlice, pySliceIdx, rescale,
    project_nonwear, nonwear_elements, exRec2]
  exact ⟨rfl, rfl, rfl⟩

/-- C7: wherever raw magnitude sample `j` of the day slice lands in the
output (offset by the prepended padding when the day starts the recording),
the returned acceleration value is `|v * 1000| / 14 - 210`; the angle and
non-wear slices pass through unscaled at the same offset; and a raw value of
`0.21` rescales to `-195`. -/
theorem C7_magnitude_rescaling (r : Recording) (day n : ℤ) (s : ℕ) (e : Option ℤ)
    (a g : List ℚ) (w : List ℕ)
    (h : day_start_and_end_time_points r day = .ok (s, e))
    (hout : get_graph_data r day n = .ok (a, g, w)) :
    rescale |(21 / 100 : ℚ) * 1000| = -195 ∧
    ∃ off : ℕ,
      (∀ j, j < (pySlice r.enmo (s : ℤ) e).length →
        a.getD (off + j) 0 = |(pySlice r.enmo (s : ℤ) e).getD j 0 * 1000| / 14 - 210) ∧
      (∀ j, j < (pySlice r.anglez (s : ℤ) e).length →
        g.getD (off + j) 0 = (pySlice r.anglez (s : ℤ) e).getD j 0) ∧
      (∀ j, j < (pySlice (nonwear_vec r) (s : ℤ) e).length →
        w.getD (off + j) 0 = (pySlice (nonwear_vec r) (s : ℤ) e).getD j 0) := by
  refine ⟨by rw [rescale]; norm_num, ?_⟩
  by_cases hs : s = 0
  · subst hs
    rw [get_graph_data_prepend r day n e h] at hout
    simp only [Except.ok.injEq, Prod.mk.injEq] at hout
    obtain ⟨ha, hg, hw⟩ := hout
    refine ⟨ext_len r n 0 e, ?_, ?_, ?_⟩
    · intro j hj
      have hj2 : j < (acc_slice r 0 e).length := by rw [acc_slice_length]; exact hj
      rw [← ha, rescale_map_getD _ _ (by simp; omega),
        getD_replicate_append_offset, acc_slice_getD r 0 e j hj]
    · intro j hj
      rw [← hg, getD_replicate_append_offset]
      simp only [ang_slice]
    · intro j hj
      rw [← hw, getD_replicate_append_offset]
      simp only [nw_slice]
  · cases e with
    | none =>
      rw [get_graph_data_append r day n s h hs] at hout
      simp only [Except.ok.injEq, Prod.mk.injEq] at hout
      obtain ⟨ha, hg, hw⟩ := hout
      refine ⟨0, ?_, ?_, ?_⟩
      · intro j hj
        have hj2 : j < (acc_slice r s none).length := by rw [acc_slice_length]; exact hj
        rw [Nat.zero_add, ← ha,
          rescale_map_getD _ _ (by simp; omega),
          getD_append_left_lt _ _ _ _ hj2, acc_slice_getD r s none j hj]
      · intro j hj
        rw [Nat.zero_add, ← hg, getD_append_left_lt _ _ _ _ (by rw [ang_slice]; exact hj),
          ang_slice]
      · intro j hj
        rw [Nat.zero_add, ← hw, getD_append_left_lt _ _ _ _ (by rw [nw_slice]; exact hj),
          nw_slice]
    | some e2 =>
      rw [get_graph_data_interior r day n s e2 h hs] at hout
      simp only [Except.ok.injEq, Prod.mk.injEq] at hout
      obtain ⟨ha, hg, hw⟩ := hout
      refine ⟨0, ?_, ?_, ?_⟩
      · intro j hj
        have hj2 : j < (acc_slice r s (some e2)).length := by
          rw [acc_slice_length]; exact hj
        rw [Nat.zero_add, ← ha, rescale_map_getD _ _ hj2,
          acc_slice_getD r s (some e2) j hj]
      · intro j hj
        rw [Nat.zero_add, ← hg, ang_slice]
      · intro j hj
        rw [Nat.zero_add, ← hw, nw_slice]

/-- Witness for C7 on the three-day example's interior day, via the claim's
own concrete instance: `0.21` rescales to `-195`. -/
theorem C7_magnitude_rescaling_witness : rescale |(21 / 100 : ℚ) * 1000| = -195 := by
  have h : day_start_and_end_time_points exRec2 1 = .ok (2, some 4) := by
    rw [day_start_exRec2_1]
    norm_num [adjust_timepoint_for_daylight_savings, truncQ]
  have hout : get_graph_data exRec2 1 5 = .ok ([-210, -210], [0, 0], [0, 0]) := by
    rw [get_graph_data_interior exRec2 1 5 2 4 h (by decide)]
    norm_num [acc_slice, ang_slice, nw_slice, nonwear_vec, pySlice, pySliceIdx, rescale,
      project_nonwear, nonwear_elements, exRec2]
    exact ⟨rfl, rfl, rfl⟩
  exact (C7_magnitude_rescaling exRec2 1 5 2 (some 4) [-210, -210] [0, 0] [0, 0] h hout).1

/-- C8 (amended): for every resolvable day, `get_graph_data` succeeds with
three sequences of one common length, provided the recording's angle column
is as long as its magnitude column; that common length is
`max (slice length) n_points_per_day` for a boundary day (first or last) and
exactly the slice length for an interior day — so it equals
`n_points_per_day` only when the slice is not overlong (boundary) or matches
exactly (interior). -/
theorem C8_day_signal_lengths (r : Recording) (day n : ℤ) (s : ℕ) (e : Option ℤ)
    (hlen : r.anglez.length = r.enmo.length)
    (h : day_start_and_end_time_points r day = .ok (s, e)) :
    ∃ a g w, get_graph_data r day n = .ok (a, g, w) ∧
      a.length = g.length ∧ g.length = w.length ∧
      ((s = 0 ∨ e = none) → (a.length : ℤ) = max ((acc_slice r s e).length : ℤ) n) ∧
      (s ≠ 0 → e ≠ none → a.length = (acc_slice r s e).length) := by
  by_cases hs : s = 0
  · subst hs
    refine ⟨_, _, _, get_graph_data_prepend r day n e h, ?_, ?_, ?_, ?_⟩
    · simp [ang_slice_length r 0 e hlen]
    · simp [nw_slice_length, ang_slice_length r 0 e hlen]
    · intro _
      simp only [List.length_map, List.length_append, List.length_replicate, ext_len]
      push_cast
      omega
    · intro hs0
      exact absurd rfl hs0
  · cases e with
    | none =>
      refine ⟨_, _, _, get_graph_data_append r day n s h hs, ?_, ?_, ?_, ?_⟩
      · simp [ang_slice_length r s none hlen]
      · simp [nw_slice_length, ang_slice_length r s none hlen]
      · intro _
        simp only [List.length_map, List.length_append, List.length_replicate, ext_len]
        push_cast
        omega
      · intro _ he
        exact absurd rfl he
    | some e2 =>
      refine ⟨_, _, _, get_graph_data_interior r day n s e2 h hs, ?_, ?_, ?_, ?_⟩
      · simp [ang_slice_length r s (some e2) hlen]
      · simp [nw_slice_length, ang_slice_length r s (some e2) hlen]
      · rintro (hs0 | he) <;> simp_all
      · intro _ _
        simp

/-- Evaluating the boundary pair of day 0 on the three-day example leaves
only the DST adjustment symbolic. -/
lemma day_start_exRec2_0 : day_start_and_end_time_points exRec2 0 =
    .ok (0, some (adjust_timepoint_for_daylight_savings 0 2 30)) := rfl

/-- Witness for C8 at day 0 of the three-day example with
`n_points_per_day = 5`. -/
theorem C8_day_signal_lengths_witness :
    ∃ a g w, get_graph_data exRec2 0 5 = .ok (a, g, w) ∧
      a.length = g.length ∧ g.length = w.length ∧
      (((0 : ℕ) = 0 ∨ (some 2 : Option ℤ) = none) →
        (a.length : ℤ) = max ((acc_slice exRec2 0 (some 2)).length : ℤ) 5) ∧
      ((0 : ℕ) ≠ 0 → (some 2 : Option ℤ) ≠ none →
        a.length = (acc_slice exRec2 0 (some 2)).length) :=
  C8_day_signal_lengths exRec2 0 5 0 (some 2) (by decide)
    (by rw [day_start_exRec2_0]
        norm_num [adjust_timepoint_for_daylight_savings, truncQ])

/-- Counterexample for C8 as stated: day 1 of the three-day example is a
valid day index, yet with `n_points_per_day = 7` the returned sequences have
length 2, not 7. -/
theorem C8_day_signal_lengths_counterexample :
    day_start_and_end_time_points exRec2 1 = .ok (2, some 4) ∧
    get_graph_data exRec2 1 7 = .ok ([-210, -210], [0, 0], [0, 0]) ∧
    ([(-210 : ℚ), -210].length ≠ 7) := by
  have h : day_start_and_end_time_points exRec2 1 = .ok (2, some 4) := by
    rw [day_start_exRec2_1]
    norm_num [adjust_timepoint_for_daylight_savings, truncQ]
  refine ⟨h, ?_, by norm_num⟩
  rw [get_graph_data_interior exRec2 1 7 2 4 h (by decide)]
  norm_num [acc_slice, ang_slice, nw_slice, nonwear_vec, pySlice, pySliceIdx, rescale,
    project_nonwear, nonwear_elements, exRec2]
  exact ⟨rfl, rfl, rfl⟩

/-- C9 (amended): a day whose window starts at sample 0 gets its zero
extension *prepended*; a final day (`end = None`) gets it *appended* only
when it is not also the first day — when a single-day recording makes both
classifications hold at once, the `start == 0` branch wins and the padding is
prepended, not appended. -/
theorem C9_padding_direction (r : Recording) (day n : ℤ) (s : ℕ) (e : Option ℤ)
    (h : day_start_and_end_time_points r day = .ok (s, e)) :
    (s = 0 → get_graph_data r day n =
      .ok ((List.replicate (ext_len r n s e) (0 : ℚ) ++ acc_slice r s e).map rescale,
        List.replicate (ext_len r n s e) (0 : ℚ) ++ ang_slice r s e,
        List.replicate (ext_len r n s e) (0 : ℕ) ++ nw_slice r s e)) ∧
    (s ≠ 0 → e = none → get_graph_data r day n =
      .ok ((acc_slice r s e ++ List.replicate (ext_len r n s e) (0 : ℚ)).map rescale,
        ang_slice r s e ++ List.replicate (ext_len r n s e) (0 : ℚ),
        nw_slice r s e ++ List.replicate (ext_len r n s e) (0 : ℕ))) := by
  constructor
  · intro hs
    subst hs
    exact get_graph_data_prepend r day n e h
  · intro hs he
    subst he
    exact get_graph_data_append r day n s h hs

/-- Witness for C9: the single-day example (day 0, `n_points_per_day = 3`)
takes the prepend branch. -/
theorem C9_padding_direction_witness :
    get_graph_data exRec1 0 3 =
      .ok ((List.replicate (ext_len exRec1 3 0 none) (0 : ℚ) ++
          acc_slice exRec1 0 none).map rescale,
        List.replicate (ext_len exRec1 3 0 none) (0 : ℚ) ++ ang_slice exRec1 0 none,
        List.replicate (ext_len exRec1 3 0 none) (0 : ℕ) ++ nw_slice exRec1 0 none) :=
  (C9_padding_direction exRec1 0 3 0 none rfl).1 rfl

/-- Counterexample for C9 as stated: in the single-day recording the one day
is both first (`start = 0`) and last (`end = None`); the claim says the last
day appends its padding, but the two padding zeros (rescaled to `-210`) land
*before* the lone data sample — the padding is prepended. -/
theorem C9_padding_direction_counterexample :
    day_start_and_end_time_points exRec1 0 = .ok (0, none) ∧
    get_graph_data exRec1 0 3 =
      .ok ([-210, -210, -970 / 7], [0, 0, 2], [0, 0, 0]) := by
  refine ⟨rfl, ?_⟩
  rw [get_graph_data_prepend exRec1 0 3 none rfl]
  norm_num [acc_slice, ang_slice, nw_slice, nonwear_vec, ext_len, pySlice, pySliceIdx,
    rescale, project_nonwear, nonwear_elements, exRec1]
  exact ⟨rfl, rfl, rfl⟩

/-- C10: when the day slice is longer than `n_points_per_day`, the zero
extension `[0] * (n_points_per_day - len(acc))` is empty, so `get_graph_data`
returns the full (rescaled) slices — longer than `n_points_per_day` — with no
trimming and no error. -/
theorem C10_no_truncation (r : Recording) (day n : ℤ) (s : ℕ) (e : Option ℤ)
    (h : day_start_and_end_time_points r day = .ok (s, e))
    (hlong : n < ((acc_slice r s e).length : ℤ)) :
    get_graph_data r day n =
      .ok ((acc_slice r s e).map rescale, ang_slice r s e, nw_slice r s e) ∧
    n < (((acc_slice r s e).map rescale).length : ℤ) := by
  have hk : ext_len r n s e = 0 := by
    rw [ext_len]
    omega
  refine ⟨?_, by rw [List.length_map]; exact hlong⟩
  by_cases hs : s = 0
  · subst hs
    have hgd := get_graph_data_prepend r day n e h
    rw [hk] at hgd
    simpa using hgd
  · cases e with
    | none =>
      have hgd := get_graph_data_append r day n s h hs
      rw [hk] at hgd
      simpa using hgd
    | some e2 =>
      exact get_graph_data_interior r day n s e2 h hs

/-- Witness for C10: day 1 of the three-day example with
`n_points_per_day = 1` returns the full two-sample slices. -/
theorem C10_no_truncation_witness :
    get_graph_data exRec2 1 1 =
      .ok ((acc_slice exRec2 2 (some 4)).map rescale, ang_slice exRec2 2 (some 4),
        nw_slice exRec2 2 (some 4)) :=
  (C10_no_truncation exRec2 1 1 2 (some 4)
    (by rw [day_start_exRec2_1]
        norm_num [adjust_timepoint_for_daylight_savings, truncQ])
    (by decide)).1
